import Mathlib

/-!
Verification of the live-transport-network-monitor repository against its
natural-language specification.

The repository's only source file is `src/conanfile.py`, a Conan package
manifest.  Its declarations (package metadata, dependency requirements, the
`generate` and `layout` methods) are embedded directly below.  The remaining
components described by the specification (heartbeat negotiation, the event
decoder, the network graph and quiet-route engine) have no source in the
repository; they are modelled from the specification's own words, and each
such definition is marked `Modelled from the spec:` in its doc comment.
-/

namespace NetworkMonitor

/-! ## Embedding of src/conanfile.py -/

/-- The text of `src/conanfile.py`, one entry per line (31 lines). -/
def conanfileLines : List String := [
  "from conan import ConanFile",
  "from conan.tools.cmake import CMakeToolchain, CMakeDeps, cmake_layout",
  "",
  "",
  "class ConanPackage(ConanFile):",
  "    name = \x27network-monitor\x27",
  "    version = \"0.1.0\"",
  "    settings = \"os\", \"compiler\", \"build_type\", \"arch\"",
  "    requires = (\"boost/1.80.0\",",
  "                \"libcurl/7.85.0\",",
  "                \"nlohmann_json/3.11.2\",",
  "                \"openssl/3.6.0\",",
  "                \"zlib/1.2.13\",",
  "                )",
  "    default_options = \x7b\"boost/*:shared\": False\x7d",
  "",
  "    def generate(self):",
  "        deps = CMakeDeps(self)",
  "        deps.generate()",
  "",
  "        toolchain = CMakeToolchain(self)",
  "        toolchain.generator = \"Ninja\"",
  "",
  "        if self.settings.build_type == \"Debug\":",
  "            toolchain.cache_variables[\"CMAKE_EXPORT_COMPILE_COMMANDS\"] = \"ON\"",
  "",
  "        toolchain.generate()",
  "",
  "    def layout(self):",
  "        cmake_layout(self)",
  ""]

/-- A resolved value for each of the four Conan settings declared on line 8 of
`conanfile.py` (`settings = "os", "compiler", "build_type", "arch"`). -/
structure ConanSettings where
  os : String
  compiler : String
  build_type : String
  arch : String
deriving DecidableEq

/-- The state of a `CMakeToolchain` object as `generate` builds it: the chosen
CMake generator and the accumulated cache variables. -/
structure CMakeToolchain where
  generator : Option String
  cache_variables : List (String × String)
deriving DecidableEq

/-- What one call to `ConanPackage.generate` produces: the `CMakeDeps`
generation side effect and the final toolchain object. -/
structure GenerateOutput where
  depsGenerated : Bool
  toolchain : CMakeToolchain
deriving DecidableEq

/-- `name = 'network-monitor'` (conanfile.py line 6). -/
def packageName : String := "network-monitor"

/-- `version = "0.1.0"` (conanfile.py line 7). -/
def packageVersion : String := "0.1.0"

/-- `requires = (...)` (conanfile.py lines 9-14). -/
def requires : List String :=
  ["boost/1.80.0", "libcurl/7.85.0", "nlohmann_json/3.11.2", "openssl/3.6.0", "zlib/1.2.13"]

/-- `default_options = {"boost/*:shared": False}` (conanfile.py line 15). -/
def default_options : List (String × Bool) := [("boost/*:shared", false)]

/-- The package part of a Conan requirement string: the text before the first
slash, e.g. `"boost"` from `"boost/1.80.0"`. -/
def requirementName (r : String) : String :=
  String.mk (r.toList.takeWhile (fun c => c != '/'))

/-- The string literal `"Debug"` compared against on line 24 of conanfile.py. -/
def kDebug : String := "Debug"

/-- The cache-variable key set on line 25 of conanfile.py. -/
def kExportCmds : String := "CMAKE_EXPORT_COMPILE_COMMANDS"

/-- `ConanPackage.generate` (conanfile.py lines 17-27), as a function of the
resolved settings.  The method builds a `CMakeDeps` generator and runs it,
builds a `CMakeToolchain`, sets its generator to Ninja, adds the
`CMAKE_EXPORT_COMPILE_COMMANDS` cache variable when the build type is Debug,
and runs the toolchain generation. -/
def generate (settings : ConanSettings) : GenerateOutput :=
  let toolchain0 : CMakeToolchain := { generator := none, cache_variables := [] }
  let toolchain1 : CMakeToolchain := { toolchain0 with generator := some ("Ninja") }
  let toolchain2 : CMakeToolchain :=
    if settings.build_type = kDebug then
      { toolchain1 with cache_variables := toolchain1.cache_variables ++ [(kExportCmds, "ON")] }
    else toolchain1
  { depsGenerated := true, toolchain := toolchain2 }

/-- The folders a Conan layout assigns (source, build, generators). -/
structure ConanFolders where
  source : String
  build : String
  generators : String
deriving DecidableEq

/-- The mutable state of a `ConanPackage` object: the class-level metadata
attributes of conanfile.py lines 5-15 plus the layout-managed folders. -/
structure ConanPackage where
  name : String
  version : String
  settings : ConanSettings
  requires : List String
  default_options : List (String × Bool)
  folders : ConanFolders
deriving DecidableEq

/-- Modelled from the spec: `cmake_layout` is the standard Conan helper
imported on line 2 of conanfile.py; its code is external to this repository.
It configures the package's folder layout from the settings and touches no
package metadata. -/
def cmake_layout (p : ConanPackage) : ConanPackage :=
  { p with folders :=
      { source := "."
        build := "build/" ++ p.settings.build_type
        generators := "build/" ++ p.settings.build_type ++ "/generators" } }

/-- `ConanPackage.generate` as a method on the package state: the body
(conanfile.py lines 17-27) assigns to no attribute of `self`, so the package
state is returned unchanged alongside the generation output. -/
def ConanPackage.runGenerate (p : ConanPackage) : ConanPackage × GenerateOutput :=
  (p, generate p.settings)

/-- `ConanPackage.layout` (conanfile.py lines 29-30): the body is exactly
`cmake_layout(self)`. -/
def ConanPackage.runLayout (p : ConanPackage) : ConanPackage :=
  cmake_layout p

/-- The `ConanPackage` object as its class attributes declare it
(conanfile.py lines 5-15), before any layout has run. -/
def initialPackage (s : ConanSettings) : ConanPackage :=
  { name := packageName
    version := packageVersion
    settings := s
    requires := requires
    default_options := default_options
    folders := { source := "", build := "", generators := "" } }

/-- A sample resolved settings value with build type Debug. -/
def debugSettings : ConanSettings :=
  { os := "Linux", compiler := "gcc", build_type := "Debug", arch := "x86_64" }

/-- A sample resolved settings value with build type Release. -/
def releaseSettings : ConanSettings :=
  { os := "Linux", compiler := "gcc", build_type := "Release", arch := "x86_64" }

/-! ## STOMP heartbeat negotiation (spec-modelled; no source in the repository) -/

/-- Modelled from the spec: STOMP heartbeat negotiation, section 4.2.  The
client proposes `(a, b)` and the server answers `(c, d)`.  The negotiated
interval in a direction is the max of the two sides' proposals for that
direction, or disabled (`none`) if either side proposes zero for it: outgoing
pairs the client's send value `a` with the server's send value `d`, incoming
pairs `b` with `c`. -/
def negotiateHeartbeat (a b c d : Nat) : Option Nat × Option Nat :=
  (if a = 0 ∨ d = 0 then none else some (max a d),
   if b = 0 ∨ c = 0 then none else some (max b c))

/-! ## Event decoder (spec-modelled; no source in the repository) -/

/-- A JSON value, the body encoding of STOMP MESSAGE payloads. -/
inductive Json where
  | null
  | bool (b : Bool)
  | num (q : ℚ)
  | str (s : String)
  | arr (elems : List Json)
  | obj (fields : List (String × Json))

/-- Field lookup on a JSON object; any non-object has no fields. -/
def Json.getField : Json → String → Option Json
  | .obj fields, k => fields.lookup k
  | _, _ => none

/-- Modelled from the spec: the decode-error taxonomy of section 4.3 — a
malformed payload. -/
inductive DecodeError where
  | MalformedPayload
deriving DecidableEq

/-- Modelled from the spec: a CrowdingEvent `{stationId, timestamp,
passengerCount, capacity}` derived from a STOMP frame body. -/
structure CrowdingEvent where
  stationId : String
  timestamp : Nat
  passengerCount : ℚ
  capacity : ℚ
deriving DecidableEq

/-- The JSON field key `"stationId"`. -/
def kStationId : String := "stationId"

/-- The JSON field key `"passengerCount"`. -/
def kPassengerCount : String := "passengerCount"

/-- The JSON field key `"capacity"`. -/
def kCapacity : String := "capacity"

/-- Modelled from the spec: `decode(frameBody) -> Result<CrowdingEvent,
DecodeError>` (section 4.3).  Fails with `MalformedPayload` if any of the
required fields stationId, passengerCount, capacity is absent or of the wrong
type, or if capacity is not positive.  The event timestamp is the receipt
time `now`. -/
def decode (body : Json) (now : Nat) : Except DecodeError CrowdingEvent :=
  match body.getField kStationId, body.getField kPassengerCount, body.getField kCapacity with
  | some (.str sid), some (.num pc), some (.num cap) =>
      if cap ≤ 0 then .error .MalformedPayload
      else .ok { stationId := sid, timestamp := now, passengerCount := pc, capacity := cap }
  | _, _, _ => .error .MalformedPayload

/-- Whether a JSON body carries the named field as a string. -/
def isStrField (body : Json) (k : String) : Bool :=
  match body.getField k with
  | some (.str _) => true
  | _ => false

/-- The numeric value of the named field of a JSON body, when it is a number. -/
def numFieldVal (body : Json) (k : String) : Option ℚ :=
  match body.getField k with
  | some (.num q) => some q
  | _ => none

/-- A frame body is valid when stationId is a string, passengerCount is a
number, and capacity is a positive number. -/
def validPayload (body : Json) : Bool :=
  isStrField body kStationId &&
  (numFieldVal body kPassengerCount).isSome &&
  (match numFieldVal body kCapacity with
   | some cap => decide (0 < cap)
   | none => false)

/-! ## Network graph and quiet-route engine (spec-modelled; no source in the
repository) -/

/-- Modelled from the spec: a directed connection of the network graph:
`(fromId, toId, baseTravelTime)`. -/
structure Edge where
  fromId : String
  toId : String
  baseTravelTime : ℚ
deriving DecidableEq

/-- Modelled from the spec: the NetworkGraph — stations, directed edges with
base travel times, and per-station latest crowding data (level and its
timestamp), fed by CrowdingEvents. -/
structure NetworkGraph where
  stations : List String
  edges : List Edge
  crowd : List (String × ℚ × Nat)
deriving DecidableEq

/-- Modelled from the spec: the frozen configuration values the engine
consumes — the crowding penalty factor and the staleness TTL. -/
structure RouterConfig where
  crowdingPenaltyFactor : ℚ
  stalenessTTL : Nat
deriving DecidableEq

/-- Clamp a rational to the interval `[0, 1]` (section 4.3 normalisation). -/
def clamp01 (q : ℚ) : ℚ := max 0 (min 1 q)

/-- Modelled from the spec: a station's effective crowding level at time
`now` — its latest recorded level, or 0 when none was recorded or the record
is stale beyond the TTL. -/
def crowdLevel (g : NetworkGraph) (now ttl : Nat) (s : String) : ℚ :=
  match g.crowd.lookup s with
  | some (r, ts) => if ttl < now - ts then 0 else r
  | none => 0

/-- Modelled from the spec: edge cost = baseTravelTime * (1 +
crowdingPenaltyFactor * maxIncidentCrowdingRatio), where the ratio is the
higher of the two endpoint stations' effective crowding levels. -/
def edgeCost (cfg : RouterConfig) (now : Nat) (g : NetworkGraph) (e : Edge) : ℚ :=
  e.baseTravelTime *
    (1 + cfg.crowdingPenaltyFactor *
      max (crowdLevel g now cfg.stalenessTTL e.fromId) (crowdLevel g now cfg.stalenessTTL e.toId))

/-- Replace (or insert) a station's crowding record in the crowd table. -/
def updateCrowd (sid : String) (r : ℚ) (ts : Nat) :
    List (String × ℚ × Nat) → List (String × ℚ × Nat)
  | [] => [(sid, r, ts)]
  | (k, v) :: rest =>
      if k = sid then (sid, r, ts) :: rest else (k, v) :: updateCrowd sid r ts rest

/-- Modelled from the spec: `applyCrowding(event)` records the event's
normalised crowding ratio (passengerCount / capacity, clamped to `[0, 1]`)
and timestamp against its station; the topology is untouched. -/
def applyCrowding (g : NetworkGraph) (ev : CrowdingEvent) : NetworkGraph :=
  { g with crowd :=
      updateCrowd ev.stationId (clamp01 (ev.passengerCount / ev.capacity)) ev.timestamp g.crowd }

/-- Modelled from the spec: handling one MESSAGE body — a successful decode
updates the graph via `applyCrowding`; a decode failure is logged and dropped
and the graph is left as it was. -/
def onMessage (g : NetworkGraph) (body : Json) (now : Nat) : NetworkGraph :=
  match decode body now with
  | .ok ev => applyCrowding g ev
  | .error _ => g

/-- Whether the graph has a directed edge from `a` to `b`. -/
def hasEdge (g : NetworkGraph) (a b : String) : Bool :=
  g.edges.any (fun e => decide (e.fromId = a ∧ e.toId = b))

/-- The cost of travelling one step from `a` to `b`: the cost of the graph's
edge between them (0 when there is none; walks only ever step along existing
edges). -/
def stepCost (cfg : RouterConfig) (now : Nat) (g : NetworkGraph) (a b : String) : ℚ :=
  match g.edges.find? (fun e => decide (e.fromId = a ∧ e.toId = b)) with
  | some e => edgeCost cfg now g e
  | none => 0

/-- The total cost of a route, summing the step costs of consecutive stops. -/
def pathCost (cfg : RouterConfig) (now : Nat) (g : NetworkGraph) : List String → ℚ
  | a :: b :: rest => stepCost cfg now g a b + pathCost cfg now g (b :: rest)
  | _ => 0

/-- `isWalkFrom g s t stops` holds when starting at `s` and stepping through
`stops` follows an edge of `g` at every step and ends at `t` (when `stops` is
empty, `s` must already be `t`). -/
def isWalkFrom (g : NetworkGraph) (s t : String) : List String → Bool
  | [] => decide (s = t)
  | y :: rest => hasEdge g s y && isWalkFrom g y t rest

/-- All simple paths (as full stop lists) from `s` to `t` that avoid the
stations in `visited`, with enough `fuel` to cover any simple path. -/
def pathsAux (g : NetworkGraph) (t : String) : Nat → String → List String → List (List String)
  | 0, _, _ => []
  | fuel + 1, s, visited =>
      if s = t then [[s]]
      else
        (g.edges.filter (fun e => decide (e.fromId = s ∧ e.toId ∉ s :: visited))).flatMap
          (fun e => (pathsAux g t fuel e.toId (s :: visited)).map (fun p => s :: p))

/-- Lexicographic order on station-id lists, the final route tie-breaker. -/
def lexLt : List String → List String → Bool
  | [], [] => false
  | [], _ :: _ => true
  | _ :: _, [] => false
  | a :: as, b :: bs => a < b || (a = b && lexLt as bs)

/-- Route preference (section 4.4): lower cost first, then fewer hops, then
lexicographic station ids, for determinism. -/
def betterRoute (cfg : RouterConfig) (now : Nat) (g : NetworkGraph)
    (p q : List String) : Bool :=
  if pathCost cfg now g p < pathCost cfg now g q then true
  else if pathCost cfg now g q < pathCost cfg now g p then false
  else if p.length < q.length then true
  else if q.length < p.length then false
  else lexLt p q

/-- The preferred route among a list of candidates, `none` when there are
none. -/
def pickBest (cfg : RouterConfig) (now : Nat) (g : NetworkGraph) :
    List (List String) → Option (List String)
  | [] => none
  | p :: ps => some (ps.foldl (fun best q => if betterRoute cfg now g q best then q else best) p)

/-- Modelled from the spec: the route-error taxonomy of section 4.4. -/
inductive RouteError where
  | UnknownStationError
  | NoRouteError
deriving DecidableEq

/-- Modelled from the spec: a Route — an ordered sequence of station ids with
a total cost. -/
structure Route where
  stops : List String
  cost : ℚ
deriving DecidableEq

/-- Modelled from the spec: `findQuietRoute(fromId, toId)` (section 4.4).
Fails with `UnknownStationError` when either id is absent from the topology;
otherwise runs a shortest-path search over the crowding-weighted graph and
returns the best route, or `NoRouteError` when the target is unreachable. -/
def findQuietRoute (cfg : RouterConfig) (now : Nat) (g : NetworkGraph)
    (fromId toId : String) : Except RouteError Route :=
  if fromId ∈ g.stations ∧ toId ∈ g.stations then
    match pickBest cfg now g (pathsAux g toId (g.stations.length + 1) fromId []) with
    | some p => .ok { stops := p, cost := pathCost cfg now g p }
    | none => .error .NoRouteError
  else .error .UnknownStationError

instance : DecidableEq (Except RouteError Route) :=
  fun a b =>
    match a, b with
    | .ok x, .ok y => decidable_of_iff (x = y) (by simp)
    | .error x, .error y => decidable_of_iff (x = y) (by simp)
    | .ok _, .error _ => .isFalse (by simp)
    | .error _, .ok _ => .isFalse (by simp)

instance : DecidableEq (Except DecodeError CrowdingEvent) :=
  fun a b =>
    match a, b with
    | .ok x, .ok y => decidable_of_iff (x = y) (by simp)
    | .error x, .error y => decidable_of_iff (x = y) (by simp)
    | .ok _, .error _ => .isFalse (by simp)
    | .error _, .ok _ => .isFalse (by simp)

/-- A topology is well formed when every edge joins stations of the graph. -/
def WellFormed (g : NetworkGraph) : Prop :=
  ∀ e ∈ g.edges, e.fromId ∈ g.stations ∧ e.toId ∈ g.stations

/-- `t` is reachable from `s` when some walk of the graph joins them. -/
def Reachable (g : NetworkGraph) (s t : String) : Prop :=
  ∃ stops, isWalkFrom g s t stops = true

/-- The configuration used by the specification's worked examples: crowding
penalty factor 2, staleness TTL 100. -/
def quietConfig : RouterConfig :=
  { crowdingPenaltyFactor := 2, stalenessTTL := 100 }

/-- The specification's example topology `A-B(10)-C(10), A-D(5)-C(5)` with no
crowding recorded anywhere. -/
def quietGraph : NetworkGraph :=
  { stations := ["A", "B", "C", "D"]
    edges := [{ fromId := "A", toId := "B", baseTravelTime := 10 },
              { fromId := "B", toId := "C", baseTravelTime := 10 },
              { fromId := "A", toId := "D", baseTravelTime := 5 },
              { fromId := "D", toId := "C", baseTravelTime := 5 }]
    crowd := [] }

end NetworkMonitor

namespace NetworkMonitor

/-! ## Theorems about the conanfile -/

/-- C1: the `requires` attribute names exactly the packages boost, libcurl,
nlohmann_json, openssl and zlib, and no other. -/
theorem requires_exact_package_set :
    requires.map requirementName = ["boost", "libcurl", "nlohmann_json", "openssl", "zlib"] := by
  decide

/-- C2 counterexample: the source is 31 lines, not 94, and `generate` does
branch: it produces different outputs for Debug and Release settings. -/
theorem source_not_94_lines_and_generate_branches :
    conanfileLines.length ≠ 94 ∧ generate debugSettings ≠ generate releaseSettings := by
  exact ⟨by decide, by decide⟩

/-- C2 amended: the repository's source consists of 31 lines, and its
`generate` function performs conditional branching on the build type: the
generated toolchain cache variables differ between Debug and Release. -/
theorem source_line_count_and_branching :
    conanfileLines.length = 31 ∧
      (generate debugSettings).toolchain.cache_variables ≠
        (generate releaseSettings).toolchain.cache_variables := by
  exact ⟨by decide, by decide⟩

/-- C3: `generate` assigns the cache variable `CMAKE_EXPORT_COMPILE_COMMANDS`
the value `"ON"` exactly when the build type is `"Debug"`; for every other
build type the variable is absent from the generated toolchain. -/
theorem generate_export_compile_commands (s : ConanSettings) :
    (generate s).toolchain.cache_variables.lookup kExportCmds =
      if s.build_type = kDebug then some ("ON") else none := by
  by_cases h : s.build_type = kDebug <;> simp [generate, h]

/-- C9: `generate` sets the CMake generator to Ninja for every settings value;
the choice does not depend on os, compiler, build type or arch. -/
theorem generate_generator_is_ninja (s : ConanSettings) :
    (generate s).toolchain.generator = some ("Ninja") := by
  by_cases h : s.build_type = kDebug <;> simp [generate, h]

/-- C10: neither `generate` nor `layout` changes the package's declared
metadata: name (`"network-monitor"`), version (`"0.1.0"`), requires and
default_options hold the same values after either call as before it. -/
theorem generate_layout_preserve_metadata (p : ConanPackage) :
    (p.runGenerate.1.name = p.name ∧ p.runGenerate.1.version = p.version ∧
      p.runGenerate.1.requires = p.requires ∧
      p.runGenerate.1.default_options = p.default_options) ∧
    (p.runLayout.name = p.name ∧ p.runLayout.version = p.version ∧
      p.runLayout.requires = p.requires ∧
      p.runLayout.default_options = p.default_options) ∧
    ((initialPackage p.settings).name = "network-monitor" ∧
      (initialPackage p.settings).version = "0.1.0" ∧
      (initialPackage p.settings).default_options = [("boost/*:shared", false)]) := by
  refine ⟨⟨rfl, rfl, rfl, rfl⟩, ⟨rfl, rfl, rfl, rfl⟩, rfl, rfl, rfl⟩

end NetworkMonitor

namespace NetworkMonitor

/-! ## Theorems about heartbeat negotiation -/

/-- C4 counterexample: with client proposal `(10, 0)` and server proposal
`(0, 0)`, outgoing heartbeating is disabled although `max(a, d) = 10 ≠ 0`, so
"disabled exactly when the relevant max is 0" does not hold and is not
equivalent to "either side proposes zero". -/
theorem heartbeat_disabled_not_iff_max_zero :
    (negotiateHeartbeat 10 0 0 0).1 = none ∧ max 10 0 ≠ 0 := by
  exact ⟨by decide, by decide⟩

/-- C4 amended: heartbeating in a direction is disabled exactly when either
side proposes zero for that direction (`a = 0 ∨ d = 0` outgoing, `b = 0 ∨
c = 0` incoming); whenever both sides propose nonzero values the negotiated
interval is `max(a, d)` outgoing and `max(b, c)` incoming. -/
theorem heartbeat_negotiation (a b c d : Nat) :
    ((negotiateHeartbeat a b c d).1 = none ↔ a = 0 ∨ d = 0) ∧
    (a ≠ 0 → d ≠ 0 → (negotiateHeartbeat a b c d).1 = some (max a d)) ∧
    ((negotiateHeartbeat a b c d).2 = none ↔ b = 0 ∨ c = 0) ∧
    (b ≠ 0 → c ≠ 0 → (negotiateHeartbeat a b c d).2 = some (max b c)) := by
  refine ⟨?_, ?_, ?_, ?_⟩
  · by_cases h : a = 0 ∨ d = 0 <;> simp [negotiateHeartbeat, h]
  · intro ha hd
    simp [negotiateHeartbeat, ha, hd]
  · by_cases h : b = 0 ∨ c = 0 <;> simp [negotiateHeartbeat, h]
  · intro hb hc
    simp [negotiateHeartbeat, hb, hc]

/-- C4 witness: the amended theorem evaluated at the concrete proposals
`(100, 150)` from the client and `(200, 250)` from the server. -/
theorem heartbeat_negotiation_witness :
    (negotiateHeartbeat 100 150 200 250).1 = some (max 100 250) ∧
    (negotiateHeartbeat 100 150 200 250).2 = some (max 150 200) := by
  exact ⟨(heartbeat_negotiation 100 150 200 250).2.1 (by decide) (by decide),
         (heartbeat_negotiation 100 150 200 250).2.2.2 (by decide) (by decide)⟩

/-! ## Theorems about the graph engine -/

/-- Replacing a station's crowding record twice with the same data is the
same as replacing it once. -/
theorem updateCrowd_idem (sid : String) (r : ℚ) (ts : Nat)
    (l : List (String × ℚ × Nat)) :
    updateCrowd sid r ts (updateCrowd sid r ts l) = updateCrowd sid r ts l := by
  induction l with
  | nil => simp [updateCrowd]
  | cons h t ih =>
      obtain ⟨k, v⟩ := h
      by_cases hk : k = sid <;> simp [updateCrowd, hk, ih]

/-- Applying the same crowding event twice yields the same graph as applying
it once. -/
theorem applyCrowding_idem_graph (g : NetworkGraph) (ev : CrowdingEvent) :
    applyCrowding (applyCrowding g ev) ev = applyCrowding g ev := by
  simp [applyCrowding, updateCrowd_idem]

/-- C8: `applyCrowding` is idempotent — for every graph, crowding event and
edge, applying the event twice in succession yields exactly the same edge
weight as applying it once. -/
theorem applyCrowding_idempotent_weights (cfg : RouterConfig) (now : Nat)
    (g : NetworkGraph) (ev : CrowdingEvent) (e : Edge) :
    edgeCost cfg now (applyCrowding (applyCrowding g ev) ev) e =
      edgeCost cfg now (applyCrowding g ev) e := by
  rw [applyCrowding_idem_graph]

/-- On the example topology, where no crowding is recorded, every edge's cost
is its base travel time. -/
theorem quiet_edge_cost (e : Edge) :
    edgeCost quietConfig 0 quietGraph e = e.baseTravelTime := by
  simp [edgeCost, crowdLevel, quietGraph, quietConfig, List.lookup]

/-- The step costs along the example topology's edges. -/
theorem quiet_step_costs :
    stepCost quietConfig 0 quietGraph ("A") ("B") = 10 ∧
    stepCost quietConfig 0 quietGraph ("B") ("C") = 10 ∧
    stepCost quietConfig 0 quietGraph ("A") ("D") = 5 ∧
    stepCost quietConfig 0 quietGraph ("D") ("C") = 5 := by
  refine ⟨?_, ?_, ?_, ?_⟩ <;> unfold stepCost
  · rw [(by decide : quietGraph.edges.find? (fun x => decide (x.fromId = "A" ∧ x.toId = "B")) =
      some { fromId := "A", toId := "B", baseTravelTime := 10 })]
    exact quiet_edge_cost _
  · rw [(by decide : quietGraph.edges.find? (fun x => decide (x.fromId = "B" ∧ x.toId = "C")) =
      some { fromId := "B", toId := "C", baseTravelTime := 10 })]
    exact quiet_edge_cost _
  · rw [(by decide : quietGraph.edges.find? (fun x => decide (x.fromId = "A" ∧ x.toId = "D")) =
      some { fromId := "A", toId := "D", baseTravelTime := 5 })]
    exact quiet_edge_cost _
  · rw [(by decide : quietGraph.edges.find? (fun x => decide (x.fromId = "D" ∧ x.toId = "C")) =
      some { fromId := "D", toId := "C", baseTravelTime := 5 })]
    exact quiet_edge_cost _

/-- The costs of the two candidate routes of the example. -/
theorem quiet_path_cost_values :
    pathCost quietConfig 0 quietGraph ["A", "B", "C"] = 20 ∧
    pathCost quietConfig 0 quietGraph ["A", "D", "C"] = 10 := by
  obtain ⟨h1, h2, h3, h4⟩ := quiet_step_costs
  constructor <;> simp [pathCost, h1, h2, h3, h4] <;> norm_num

/-- C5: the cost of every edge is baseTravelTime * (1 + crowdingPenaltyFactor
* maxIncidentCrowdingRatio), the ratio being the higher of the two endpoint
stations' effective crowding levels (0 when stale beyond the TTL); and on the
example topology `A-B(10)-C(10), A-D(5)-C(5)` with crowding 0 everywhere,
`findQuietRoute A C` returns the route `[A, D, C]` with total cost 10. -/
theorem edge_cost_formula_and_quiet_route_example :
    (∀ (cfg : RouterConfig) (now : Nat) (g : NetworkGraph) (e : Edge),
        edgeCost cfg now g e = e.baseTravelTime *
          (1 + cfg.crowdingPenaltyFactor *
            max (crowdLevel g now cfg.stalenessTTL e.fromId)
              (crowdLevel g now cfg.stalenessTTL e.toId))) ∧
    findQuietRoute quietConfig 0 quietGraph ("A") ("C") =
      .ok { stops := ["A", "D", "C"], cost := 10 } := by
  constructor
  · exact fun _ _ _ _ => rfl
  · obtain ⟨hABC, hADC⟩ := quiet_path_cost_values
    have hpaths : pathsAux quietGraph ("C") (quietGraph.stations.length + 1) ("A") [] =
        [["A", "B", "C"], ["A", "D", "C"]] := by decide
    have hbr : betterRoute quietConfig 0 quietGraph ["A", "D", "C"] ["A", "B", "C"] = true := by
      simp only [betterRoute, hABC, hADC]
      norm_num
    unfold findQuietRoute
    rw [if_pos (show ("A" : String) ∈ quietGraph.stations ∧ ("C" : String) ∈ quietGraph.stations
      from ⟨by decide, by decide⟩)]
    rw [hpaths]
    simp [pickBest, List.foldl, hbr, hADC]

end NetworkMonitor

namespace NetworkMonitor

/-! ## Theorems about the event decoder -/

/-- C6: `decode` fails with `MalformedPayload` exactly when one of the
required fields stationId, passengerCount, capacity is absent or of the wrong
type or `capacity ≤ 0`; and whenever decode fails, the network graph is left
unchanged. -/
theorem decode_malformed_and_graph_unchanged (body : Json) (now : Nat) (g : NetworkGraph) :
    (decode body now = .error .MalformedPayload ↔ validPayload body = false) ∧
    (decode body now = .error .MalformedPayload → onMessage g body now = g) := by
  refine ⟨?_, ?_⟩
  · cases h1 : body.getField kStationId with
    | none => simp [decode, validPayload, isStrField, numFieldVal, h1]
    | some j1 =>
      cases j1 with
      | str sid =>
        cases h2 : body.getField kPassengerCount with
        | none => simp [decode, validPayload, isStrField, numFieldVal, h1, h2]
        | some j2 =>
          cases j2 with
          | num pc =>
            cases h3 : body.getField kCapacity with
            | none => simp [decode, validPayload, isStrField, numFieldVal, h1, h2, h3]
            | some j3 =>
              cases j3 with
              | num cap =>
                by_cases hc : cap ≤ 0
                · simp [decode, validPayload, isStrField, numFieldVal, h1, h2, h3, hc,
                    not_lt.mpr hc]
                · simp [decode, validPayload, isStrField, numFieldVal, h1, h2, h3, hc,
                    lt_of_not_le hc]
              | null => simp [decode, validPayload, isStrField, numFieldVal, h1, h2, h3]
              | bool b => simp [decode, validPayload, isStrField, numFieldVal, h1, h2, h3]
              | str s => simp [decode, validPayload, isStrField, numFieldVal, h1, h2, h3]
              | arr elems => simp [decode, validPayload, isStrField, numFieldVal, h1, h2, h3]
              | obj fields => simp [decode, validPayload, isStrField, numFieldVal, h1, h2, h3]
          | null => simp [decode, validPayload, isStrField, numFieldVal, h1, h2]
          | bool b => simp [decode, validPayload, isStrField, numFieldVal, h1, h2]
          | str s => simp [decode, validPayload, isStrField, numFieldVal, h1, h2]
          | arr elems => simp [decode, validPayload, isStrField, numFieldVal, h1, h2]
          | obj fields => simp [decode, validPayload, isStrField, numFieldVal, h1, h2]
      | null => simp [decode, validPayload, isStrField, numFieldVal, h1]
      | bool b => simp [decode, validPayload, isStrField, numFieldVal, h1]
      | num q => simp [decode, validPayload, isStrField, numFieldVal, h1]
      | arr elems => simp [decode, validPayload, isStrField, numFieldVal, h1]
      | obj fields => simp [decode, validPayload, isStrField, numFieldVal, h1]
  · intro h
    simp [onMessage, h]

/-- C6 witness: the specification's example body `{"stationId": "A"}` fails to
decode and leaves the example graph unchanged. -/
theorem decode_malformed_witness :
    decode (Json.obj [(kStationId, Json.str ("A"))]) 0 = .error .MalformedPayload ∧
    onMessage quietGraph (Json.obj [(kStationId, Json.str ("A"))]) 0 = quietGraph := by
  have h : decode (Json.obj [(kStationId, Json.str ("A"))]) 0 = .error .MalformedPayload := rfl
  exact ⟨h,
    (decode_malformed_and_graph_unchanged (Json.obj [(kStationId, Json.str ("A"))]) 0
      quietGraph).2 h⟩

/-! ## Reachability and the route-error trichotomy -/

/-- `hasEdge` answers exactly edge membership. -/
theorem hasEdge_iff (g : NetworkGraph) (a b : String) :
    hasEdge g a b = true ↔ ∃ e ∈ g.edges, e.fromId = a ∧ e.toId = b := by
  simp [hasEdge]

/-- A suffix of a walk, starting at the station just before it, is a walk. -/
theorem walk_suffix (g : NetworkGraph) (t x : String) (l2 : List String) :
    ∀ (l1 : List String) (s : String), isWalkFrom g s t (l1 ++ x :: l2) = true →
      isWalkFrom g x t l2 = true := by
  intro l1
  induction l1 with
  | nil =>
      intro s h
      simp only [List.nil_append, isWalkFrom, Bool.and_eq_true] at h
      exact h.2
  | cons y l1 ih =>
      intro s h
      simp only [List.cons_append, isWalkFrom, Bool.and_eq_true] at h
      exact ih y h.2

/-- A nonempty walk contains its destination. -/
theorem walk_end_mem (g : NetworkMonitor.NetworkGraph) (t : String) :
    ∀ (stops : List String) (s : String), stops ≠ [] → isWalkFrom g s t stops = true →
      t ∈ stops := by
  intro stops
  induction stops with
  | nil => intro s h _; exact absurd rfl h
  | cons y tl ih =>
      intro s _ hw
      simp only [isWalkFrom, Bool.and_eq_true] at hw
      cases tl with
      | nil =>
          have hyt : y = t := by simpa [isWalkFrom] using hw.2
          simp [hyt]
      | cons z tl2 =>
          exact List.mem_cons_of_mem y (ih y (by simp) hw.2)

/-- In a well-formed graph, every station of a walk is a station of the
graph. -/
theorem walk_mem_stations (g : NetworkGraph) (hWF : WellFormed g) (t : String) :
    ∀ (stops : List String) (s : String), isWalkFrom g s t stops = true →
      ∀ x ∈ stops, x ∈ g.stations := by
  intro stops
  induction stops with
  | nil => intro s _ x hx; simp at hx
  | cons y tl ih =>
      intro s hw x hx
      simp only [isWalkFrom, Bool.and_eq_true] at hw
      rcases List.mem_cons.mp hx with rfl | hx2
      · obtain ⟨e, he, hef, het⟩ := (hasEdge_iff g s x).mp hw.1
        exact het ▸ (hWF e he).2
      · exact ih y hw.2 x hx2

/-- Every walk contains a duplicate-free walk between the same endpoints,
using only stations of the original. -/
theorem walk_shorten_aux (g : NetworkGraph) (t : String) :
    ∀ (n : Nat) (s : String) (stops : List String), stops.length ≤ n →
      isWalkFrom g s t stops = true →
      ∃ stops', isWalkFrom g s t stops' = true ∧ (s :: stops').Nodup ∧ stops' ⊆ stops := by
  intro n
  induction n with
  | zero =>
      intro s stops hlen hw
      have hnil : stops = [] := List.length_eq_zero.mp (Nat.le_zero.mp hlen)
      subst hnil
      exact ⟨[], hw, List.nodup_singleton s, List.Subset.refl _⟩
  | succ m ih =>
      intro s stops hlen hw
      by_cases hs : s ∈ stops
      · obtain ⟨l1, l2, rfl⟩ := List.append_of_mem hs
        have hw2 : isWalkFrom g s t l2 = true := walk_suffix g t s l2 l1 s hw
        have hlen2 : l2.length ≤ m := by
          simp only [List.length_append, List.length_cons] at hlen
          omega
        obtain ⟨r, hr1, hr2, hr3⟩ := ih s l2 hlen2 hw2
        exact ⟨r, hr1, hr2, fun x hx =>
          List.mem_append_right l1 (List.mem_cons_of_mem s (hr3 hx))⟩
      · cases stops with
        | nil => exact ⟨[], hw, List.nodup_singleton s, List.Subset.refl _⟩
        | cons y tl =>
            simp only [isWalkFrom, Bool.and_eq_true] at hw
            have hlen2 : tl.length ≤ m := by
              simp only [List.length_cons] at hlen
              omega
            obtain ⟨r, hr1, hr2, hr3⟩ := ih y tl hlen2 hw.2
            refine ⟨y :: r, ?_, ?_, ?_⟩
            · simp only [isWalkFrom, Bool.and_eq_true]
              exact ⟨hw.1, hr1⟩
            · refine List.nodup_cons.mpr ⟨?_, hr2⟩
              intro hsm
              rcases List.mem_cons.mp hsm with rfl | hsr
              · exact hs (List.mem_cons_self s tl)
              · exact hs (List.mem_cons_of_mem y (hr3 hsr))
            · intro x hx
              rcases List.mem_cons.mp hx with rfl | hxr
              · exact List.mem_cons_self x tl
              · exact List.mem_cons_of_mem y (hr3 hxr)

/-- Every stop list produced by `pathsAux` is a walk from `s` to `t`. -/
theorem pathsAux_sound (g : NetworkGraph) (t : String) :
    ∀ (fuel : Nat) (s : String) (visited : List String) (p : List String),
      p ∈ pathsAux g t fuel s visited →
      ∃ stops, p = s :: stops ∧ isWalkFrom g s t stops = true := by
  intro fuel
  induction fuel with
  | zero => intro s visited p hp; simp [pathsAux] at hp
  | succ m ih =>
      intro s visited p hp
      by_cases hst : s = t
      · subst hst
        simp [pathsAux] at hp
        subst hp
        exact ⟨[], rfl, by simp [isWalkFrom]⟩
      · simp only [pathsAux, if_neg hst, List.mem_flatMap, List.mem_filter,
          List.mem_map] at hp
        obtain ⟨e, ⟨he, hcond⟩, q, hq, rfl⟩ := hp
        obtain ⟨stops2, rfl, hw⟩ := ih e.toId (s :: visited) q hq
        have hcond2 := of_decide_eq_true hcond
        refine ⟨e.toId :: stops2, rfl, ?_⟩
        simp only [isWalkFrom, Bool.and_eq_true]
        exact ⟨(hasEdge_iff g s e.toId).mpr ⟨e, he, hcond2.1, rfl⟩, hw⟩

/-- `pathsAux` finds every duplicate-free walk that avoids the visited set,
given enough fuel. -/
theorem pathsAux_complete (g : NetworkGraph) (t : String) :
    ∀ (fuel : Nat) (s : String) (visited : List String) (stops : List String),
      isWalkFrom g s t stops = true → (s :: stops).Nodup →
      (∀ x ∈ s :: stops, x ∉ visited) → stops.length < fuel →
      (s :: stops) ∈ pathsAux g t fuel s visited := by
  intro fuel
  induction fuel with
  | zero => intro s visited stops _ _ _ h; exact absurd h (Nat.not_lt_zero _)
  | succ m ih =>
      intro s visited stops hw hnd hvis hlen
      by_cases hst : s = t
      · subst hst
        have hnil : stops = [] := by
          by_contra hne
          exact (List.nodup_cons.mp hnd).1 (walk_end_mem g s stops s hne hw)
        subst hnil
        simp [pathsAux]
      · cases stops with
        | nil => simp [isWalkFrom, hst] at hw
        | cons y tl =>
            simp only [isWalkFrom, Bool.and_eq_true] at hw
            obtain ⟨e, he, hef, het⟩ := (hasEdge_iff g s y).mp hw.1
            subst het
            have hnd2 : (e.toId :: tl).Nodup := (List.nodup_cons.mp hnd).2
            have hsnotin : s ∉ e.toId :: tl := (List.nodup_cons.mp hnd).1
            have hvis2 : ∀ x ∈ e.toId :: tl, x ∉ s :: visited := by
              intro x hx
              simp only [List.mem_cons, not_or]
              exact ⟨fun hxs => hsnotin (hxs ▸ hx),
                hvis x (List.mem_cons_of_mem s hx)⟩
            have hlen2 : tl.length < m := by
              simp only [List.length_cons] at hlen
              omega
            have hmem := ih e.toId (s :: visited) tl hw.2 hnd2 hvis2 hlen2
            simp only [pathsAux, if_neg hst, List.mem_flatMap, List.mem_filter,
              List.mem_map]
            refine ⟨e, ⟨he, ?_⟩, e.toId :: tl, hmem, rfl⟩
            refine decide_eq_true ⟨hef, ?_⟩
            exact hvis2 e.toId (List.mem_cons_self e.toId tl)

/-- In a well-formed graph, reachability from a station of the topology is
exactly nonemptiness of the simple-path enumeration. -/
theorem reachable_iff_pathsAux_ne_nil (g : NetworkGraph) (hWF : WellFormed g)
    (f t : String) (hf : f ∈ g.stations) :
    Reachable g f t ↔ pathsAux g t (g.stations.length + 1) f [] ≠ [] := by
  constructor
  · rintro ⟨stops, hw⟩
    obtain ⟨stops', hw', hnd, hsub⟩ :=
      walk_shorten_aux g t stops.length f stops (le_refl _) hw
    have hsubset : ∀ x ∈ f :: stops', x ∈ g.stations := by
      intro x hx
      rcases List.mem_cons.mp hx with rfl | hx2
      · exact hf
      · exact walk_mem_stations g hWF t stops' f hw' x hx2
    have hlen : (f :: stops').length ≤ g.stations.length :=
      (hnd.subperm hsubset).length_le
    have hlt : stops'.length < g.stations.length + 1 := by
      simp only [List.length_cons] at hlen
      omega
    have hmem := pathsAux_complete g t (g.stations.length + 1) f [] stops' hw' hnd
      (by intro x _; simp) hlt
    exact List.ne_nil_of_mem hmem
  · intro hne
    obtain ⟨p, hp⟩ := List.exists_mem_of_ne_nil _ hne
    obtain ⟨stops, _, hw⟩ := pathsAux_sound g t (g.stations.length + 1) f [] p hp
    exact ⟨stops, hw⟩

/-- `pickBest` returns a candidate exactly when one exists. -/
theorem pickBest_eq_none_iff (cfg : RouterConfig) (now : Nat) (g : NetworkGraph)
    (l : List (List String)) : pickBest cfg now g l = none ↔ l = [] := by
  cases l <;> simp [pickBest]

/-- C7: for every well-formed topology, `findQuietRoute` returns
`UnknownStationError` when either station id is absent, `NoRouteError` when
both are present but the target is unreachable from the source, and a route
otherwise. -/
theorem findQuietRoute_error_cases (cfg : RouterConfig) (now : Nat) (g : NetworkGraph)
    (hWF : WellFormed g) (f t : String) :
    ((f ∉ g.stations ∨ t ∉ g.stations) →
        findQuietRoute cfg now g f t = .error .UnknownStationError) ∧
    (f ∈ g.stations → t ∈ g.stations → ¬ Reachable g f t →
        findQuietRoute cfg now g f t = .error .NoRouteError) ∧
    (f ∈ g.stations → t ∈ g.stations → Reachable g f t →
        ∃ r, findQuietRoute cfg now g f t = .ok r) := by
  refine ⟨?_, ?_, ?_⟩
  · intro h
    unfold findQuietRoute
    rw [if_neg (by tauto : ¬(f ∈ g.stations ∧ t ∈ g.stations))]
  · intro hf ht hnr
    have hempty : pathsAux g t (g.stations.length + 1) f [] = [] := by
      by_contra hne
      exact hnr ((reachable_iff_pathsAux_ne_nil g hWF f t hf).mpr hne)
    unfold findQuietRoute
    rw [if_pos ⟨hf, ht⟩, hempty]
    rfl
  · intro hf ht hr
    have hne := (reachable_iff_pathsAux_ne_nil g hWF f t hf).mp hr
    unfold findQuietRoute
    rw [if_pos ⟨hf, ht⟩]
    cases hpick : pickBest cfg now g (pathsAux g t (g.stations.length + 1) f []) with
    | none => exact absurd ((pickBest_eq_none_iff cfg now g _).mp hpick) hne
    | some p => exact ⟨_, rfl⟩

/-- C7 witness: on the example topology, an unknown id yields
`UnknownStationError`, the unreachable query C to A yields `NoRouteError`,
and the reachable query A to C yields a route. -/
theorem findQuietRoute_error_cases_witness :
    findQuietRoute quietConfig 0 quietGraph ("A") ("Z") = .error .UnknownStationError ∧
    findQuietRoute quietConfig 0 quietGraph ("C") ("A") = .error .NoRouteError ∧
    ∃ r, findQuietRoute quietConfig 0 quietGraph ("A") ("C") = .ok r := by
  have hWF : WellFormed quietGraph := by
    unfold WellFormed
    decide
  refine ⟨?_, ?_, ?_⟩
  · exact (findQuietRoute_error_cases quietConfig 0 quietGraph hWF ("A") ("Z")).1
      (Or.inr (by decide))
  · refine (findQuietRoute_error_cases quietConfig 0 quietGraph hWF ("C") ("A")).2.1
      (by decide) (by decide) ?_
    intro hr
    exact (reachable_iff_pathsAux_ne_nil quietGraph hWF ("C") ("A") (by decide)).mp hr
      (by decide)
  · exact (findQuietRoute_error_cases quietConfig 0 quietGraph hWF ("A") ("C")).2.2
      (by decide) (by decide) ⟨["D", "C"], by decide⟩

end NetworkMonitor
